import Mathlib

/-!
Verification of the Arbitrage Detection & Execution Engine
(`engines/arbitrage_engine.py` of tradingbot-v5).

The engine is embedded shallowly: venue tickers, the fee table, the four
strategy detectors, the profitability filter / ranking stage of `scan_all`,
and the execution gate `_execute_arbitrage` are translated into executable
Lean definitions over exact rational arithmetic.  Network fetches are
modelled as `Option`-valued functions (a `none` models a raised/caught
exception for that venue-symbol call); the wall clock is an explicit
parameter `now` used only to stamp ids and timestamps, exactly as
`datetime.now()` is in the source.
-/

namespace TradingBotV5

/-- Best bid/ask snapshot for one venue and one symbol, as returned by
`exchange.fetch_ticker`: bid, ask, last trade price and 24h quote volume
(`ticker.get('quoteVolume', 0)`). -/
structure Ticker where
  bid : ℚ
  ask : ℚ
  last : ℚ
  quoteVolume : ℚ
deriving Repr, DecidableEq

/-- The four arbitrage strategy kinds (`ArbitrageType` enum). -/
inductive ArbitrageType where
  | cross_exchange
  | triangular
  | funding_rate
  | stablecoin
deriving Repr, DecidableEq

/-- `ArbitrageOpportunity` dataclass.  The free-form `details` map is not
modelled (no claim depends on it); all numeric fields are exact rationals.
`spread`, `net_profit`, `gross_profit` are stored in percent, as in the
source (`spread=spread_1to2 * 100`, ...). -/
structure ArbitrageOpportunity where
  id : String
  arb_type : ArbitrageType
  symbol : String
  buy_exchange : String
  buy_price : ℚ
  sell_exchange : String
  sell_price : ℚ
  spread : ℚ
  net_profit : ℚ
  gross_profit : ℚ
  max_size : ℚ
  execution_time_ms : ℕ
  timestamp : ℚ
  confidence : ℚ
deriving Repr, DecidableEq

/-- A connected venue handle: its dict key in `self.exchanges`, its
`fetch_ticker` behaviour for this cycle (`none` = the call raises and is
caught by the surrounding `except`), and its `markets` key set. -/
structure Exchange where
  name : String
  fetchTicker : String → Option Ticker
  markets : List String

/-- The slice of `TradingBotV5Config` the engine reads. -/
structure Config where
  trading_pairs : List String
  min_arbitrage_profit_pct : ℚ
  paper_trading : Bool

/-- The engine's running statistics (`total_scans`, `total_opportunities`,
`total_profit`). -/
structure Stats where
  total_scans : ℕ
  total_opportunities : ℕ
  total_profit : ℚ
deriving Repr, DecidableEq

/-- Engine state relevant to one scan: the connected exchanges (in dict
insertion order) and the configuration. -/
structure Engine where
  exchanges : List Exchange
  config : Config

/-- `self.fee_rates` dict with its `.get(name, 0.1)` default, in percent. -/
def fee_rates (name : String) : ℚ :=
  if name = "binance" then 0.075
  else if name = "bybit" then 0.075
  else if name = "okx" then 0.08
  else if name = "kucoin" then 0.1
  else if name = "mexc" then 0.1
  else 0.1

/-- The fixed triangular path catalogue `self.triangular_paths`. -/
def triangular_paths : List (String × String × String) :=
  [("BTC/USDT", "ETH/BTC", "ETH/USDT"),
   ("BTC/USDT", "SOL/BTC", "SOL/USDT"),
   ("ETH/USDT", "SOL/ETH", "SOL/USDT")]

/-- The per-symbol `prices` dict of `_scan_cross_exchange`: every venue is
asked for a ticker, a venue whose fetch raises is simply absent from the
dict (insertion order preserved). -/
def collectPrices (exchanges : List Exchange) (symbol : String) :
    List (String × Ticker) :=
  exchanges.filterMap fun ex => (ex.fetchTicker symbol).map fun t => (ex.name, t)

/-- One direction of a cross-exchange comparison: buy at `buy`'s ask, sell
at `sell`'s bid.  Emits an opportunity exactly when the relative spread
exceeds the combined fee of the two venues (`spread_1to2 > total_fees/100`). -/
def crossDir (symbol : String) (buy sell : String × Ticker) (now : ℚ) :
    Option ArbitrageOpportunity :=
  let spread := (sell.2.bid - buy.2.ask) / buy.2.ask
  let total_fees := fee_rates buy.1 + fee_rates sell.1
  if spread > total_fees / 100 then
    some
      { id := "cross_" ++ symbol ++ "_" ++ buy.1 ++ "_" ++ sell.1 ++ "_" ++ toString now
        arb_type := ArbitrageType.cross_exchange
        symbol := symbol
        buy_exchange := buy.1
        buy_price := buy.2.ask
        sell_exchange := sell.1
        sell_price := sell.2.bid
        spread := spread * 100
        net_profit := (spread - total_fees / 100) * 100
        gross_profit := spread * 100
        max_size := min buy.2.quoteVolume sell.2.quoteVolume * 0.01
        execution_time_ms := 500
        timestamp := now
        confidence := if spread > 0.002 then 0.8 else 0.6 }
  else none

/-- All index pairs `i < j` of a list, in the order of the source's double
loop `for i in range(n): for j in range(i+1, n)`. -/
def allPairs {α : Type} : List α → List (α × α)
  | [] => []
  | x :: xs => (xs.map fun y => (x, y)) ++ allPairs xs

/-- Cross-exchange scan of one symbol: collect the responding venues'
prices, skip the symbol if fewer than two responded, otherwise compare
every unordered venue pair in both directions. -/
def scanSymbolCross (exchanges : List Exchange) (symbol : String) (now : ℚ) :
    List ArbitrageOpportunity :=
  let prices := collectPrices exchanges symbol
  if prices.length < 2 then []
  else
    (allPairs prices).flatMap fun pr =>
      (crossDir symbol pr.1 pr.2 now).toList ++ (crossDir symbol pr.2 pr.1 now).toList

/-- `_scan_cross_exchange`: early exit when fewer than two venues are
connected, otherwise scan every configured symbol. -/
def scan_cross_exchange (exchanges : List Exchange) (pairs : List String) (now : ℚ) :
    List ArbitrageOpportunity :=
  if exchanges.length < 2 then []
  else pairs.flatMap fun symbol => scanSymbolCross exchanges symbol now

/-- One venue/path combination of `_scan_triangular`: fetch the three legs
(any failure skips the combination), simulate the 1000-notional traversal
through ask/bid/bid, subtract three taker fees, and emit only when the net
profit strictly exceeds `min_arbitrage_profit_pct / 100`. -/
def scanTriangularPath (ex : Exchange) (path : String × String × String)
    (min_pct : ℚ) (now : ℚ) : List ArbitrageOpportunity :=
  match ex.fetchTicker path.1, ex.fetchTicker path.2.1, ex.fetchTicker path.2.2 with
  | some t0, some t1, some t2 =>
    let start_amount : ℚ := 1000
    let amount1 := start_amount / t0.ask
    let amount2 := amount1 * t1.bid
    let final_amount := amount2 * t2.bid
    let profit := (final_amount - start_amount) / start_amount
    let fees := 3 * fee_rates ex.name / 100
    let net_profit := profit - fees
    if net_profit > min_pct / 100 then
      [{ id := "tri_" ++ ex.name ++ "_" ++ path.1 ++ "_" ++ toString now
         arb_type := ArbitrageType.triangular
         symbol := path.1 ++ "->" ++ path.2.1 ++ "->" ++ path.2.2
         buy_exchange := ex.name
         buy_price := t0.ask
         sell_exchange := ex.name
         sell_price := t2.bid
         spread := profit * 100
         net_profit := net_profit * 100
         gross_profit := profit * 100
         max_size := 1000
         execution_time_ms := 300
         timestamp := now
         confidence := 0.7 }]
    else []
  | _, _, _ => []

/-- `_scan_triangular`: every connected venue against every catalogued path. -/
def scan_triangular (exchanges : List Exchange) (min_pct : ℚ) (now : ℚ) :
    List ArbitrageOpportunity :=
  exchanges.flatMap fun ex =>
    triangular_paths.flatMap fun p => scanTriangularPath ex p min_pct now

/-- One symbol of `_scan_funding_rates`: the placeholder rate `0.0001` is
compared against the `0.0005` materiality threshold. -/
def fundingSymbolScan (symbol : String) (now : ℚ) : List ArbitrageOpportunity :=
  let funding_rate : ℚ := 0.0001
  if |funding_rate| > 0.0005 then
    [{ id := "funding_" ++ symbol ++ "_" ++ toString now
       arb_type := ArbitrageType.funding_rate
       symbol := symbol
       buy_exchange := "binance_spot"
       buy_price := 0
       sell_exchange := "binance_futures"
       sell_price := 0
       spread := |funding_rate| * 100
       net_profit := |funding_rate| * 100
       gross_profit := |funding_rate| * 100
       max_size := 10000
       execution_time_ms := 1000
       timestamp := now
       confidence := 0.6 }]
  else []

/-- `_scan_funding_rates`: only runs when a venue keyed `binance` is
connected, over the two hardcoded symbols. -/
def scan_funding_rates (exchanges : List Exchange) (now : ℚ) :
    List ArbitrageOpportunity :=
  if exchanges.any fun ex => ex.name = "binance" then
    (["BTC/USDT", "ETH/USDT"].flatMap fun s => fundingSymbolScan s now)
  else []

/-- The stablecoin reference pairs of `_scan_stablecoins`. -/
def stablecoin_pairs : List String := ["USDC/USDT", "DAI/USDT", "BUSD/USDT"]

/-- One venue/pair combination of `_scan_stablecoins`: deviation of the
last price from the 1.0 peg, emitted above the 0.002 threshold with a
0.001 fee allowance deducted. -/
def scanStablePair (ex : Exchange) (pair : String) (now : ℚ) :
    List ArbitrageOpportunity :=
  if pair ∈ ex.markets then
    match ex.fetchTicker pair with
    | some t =>
      let price := t.last
      let deviation := |price - 1|
      if deviation > 0.002 then
        [{ id := "stable_" ++ pair ++ "_" ++ ex.name ++ "_" ++ toString now
           arb_type := ArbitrageType.stablecoin
           symbol := pair
           buy_exchange := ex.name
           buy_price := if price < 1 then t.ask else t.bid
           sell_exchange := ex.name
           sell_price := 1
           spread := deviation * 100
           net_profit := (deviation - 0.001) * 100
           gross_profit := deviation * 100
           max_size := 50000
           execution_time_ms := 200
           timestamp := now
           confidence := 0.5 }]
      else []
    | none => []
  else []

/-- `_scan_stablecoins`: every venue against every stablecoin pair it lists. -/
def scan_stablecoins (exchanges : List Exchange) (now : ℚ) :
    List ArbitrageOpportunity :=
  exchanges.flatMap fun ex => stablecoin_pairs.flatMap fun p => scanStablePair ex p now

/-- The loop over `asyncio.gather(*tasks, return_exceptions=True)` results:
a detector that returned a list contributes its opportunities in task
order; a detector that raised contributes nothing. -/
def mergeResults (results : List (Except String (List ArbitrageOpportunity))) :
    List ArbitrageOpportunity :=
  results.foldl
    (fun acc r =>
      match r with
      | Except.ok l => acc ++ l
      | Except.error _ => acc)
    []

/-- The sort order of `profitable.sort(key=lambda x: x.net_profit,
reverse=True)`: descending net profit. -/
def byNetProfitDesc (a b : ArbitrageOpportunity) : Prop :=
  b.net_profit ≤ a.net_profit

instance : DecidableRel byNetProfitDesc :=
  fun a b => inferInstanceAs (Decidable (b.net_profit ≤ a.net_profit))

instance : IsTotal ArbitrageOpportunity byNetProfitDesc :=
  ⟨fun a b => le_total b.net_profit a.net_profit⟩

instance : IsTrans ArbitrageOpportunity byNetProfitDesc :=
  ⟨fun _ _ _ hab hbc => le_trans hbc hab⟩

/-- The four detector tasks of one `scan_all` cycle, in task order.  All
four are total functions here, so each appears as an `Except.ok`;
`mergeResults` is nevertheless the faithful model of the result loop,
which must also absorb `Except.error` values. -/
def detectorResults (eng : Engine) (now : ℚ) :
    List (Except String (List ArbitrageOpportunity)) :=
  [Except.ok (scan_cross_exchange eng.exchanges eng.config.trading_pairs now),
   Except.ok (scan_triangular eng.exchanges eng.config.min_arbitrage_profit_pct now),
   Except.ok (scan_funding_rates eng.exchanges now),
   Except.ok (scan_stablecoins eng.exchanges now)]

/-- The filter/rank stage of `scan_all`: keep opportunities with
`o.spread >= min_arbitrage_profit_pct / 100` and sort by net profit
descending (Python's sort is stable; insertion sort is the stable sort). -/
def profitableOpps (eng : Engine) (now : ℚ) : List ArbitrageOpportunity :=
  let all_opportunities := mergeResults (detectorResults eng now)
  let min_profit := eng.config.min_arbitrage_profit_pct / 100
  (all_opportunities.filter fun o => decide (min_profit ≤ o.spread)).insertionSort
    byNetProfitDesc

/-- One simulated/notified execution produced by `_execute_arbitrage`. -/
structure Execution where
  opp : ArbitrageOpportunity
  size : ℚ
  estimated_profit : ℚ
deriving Repr

/-- `_execute_arbitrage`: size the trade at
`min(opportunity.max_size, budget * 0.1)` against the budget value it was
handed, return early (no execution, no notification) below the $10
minimum, otherwise execute with `estimated_profit = size * net_profit/100`. -/
def execute_arbitrage (opportunity : ArbitrageOpportunity) (budget : ℚ) :
    Option Execution :=
  let size := min opportunity.max_size (budget * 0.1)
  if size < 10 then none
  else some ⟨opportunity, size, size * (opportunity.net_profit / 100)⟩

/-- The execution loop of `scan_all`: iterate the first three ranked
opportunities, execute those with confidence at least 0.7, each against
the same cycle-start budget snapshot. -/
def runGate (profitable : List ArbitrageOpportunity) (arb_budget : ℚ) :
    List Execution :=
  ((profitable.take 3).filter fun o => decide ((0.7 : ℚ) ≤ o.confidence)).filterMap
    fun o => execute_arbitrage o arb_budget

/-- Observable outcome of one `scan_all` cycle: the updated statistics,
the ranked profitable list it returns, and the executions it performed. -/
structure ScanResult where
  stats : Stats
  opportunities : List ArbitrageOpportunity
  executions : List Execution

/-- `scan_all`: bump the scan counter, read the arbitrage budget and
short-circuit on a non-positive one, otherwise merge the four detectors'
results, filter and rank, count the survivors, and run the execution gate
(paper trading accumulates the estimated profits into `total_profit`). -/
def scan_all (eng : Engine) (stats : Stats) (arb_budget : ℚ) (now : ℚ) :
    ScanResult :=
  let stats1 : Stats := { stats with total_scans := stats.total_scans + 1 }
  if arb_budget ≤ 0 then ⟨stats1, [], []⟩
  else
    let profitable := profitableOpps eng now
    let execs := runGate profitable arb_budget
    let profitDelta :=
      if eng.config.paper_trading then (execs.map (·.estimated_profit)).sum else 0
    ⟨{ stats1 with
        total_opportunities := stats1.total_opportunities + profitable.length
        total_profit := stats1.total_profit + profitDelta },
      profitable, execs⟩

/-- The time-independent ("economic") fields of an opportunity: everything
except the wall-clock-derived `id` and `timestamp`. -/
structure OppCore where
  arb_type : ArbitrageType
  symbol : String
  buy_exchange : String
  buy_price : ℚ
  sell_exchange : String
  sell_price : ℚ
  spread : ℚ
  net_profit : ℚ
  gross_profit : ℚ
  max_size : ℚ
  execution_time_ms : ℕ
  confidence : ℚ
deriving Repr, DecidableEq

/-- Project an opportunity onto its time-independent fields. -/
def ArbitrageOpportunity.core (o : ArbitrageOpportunity) : OppCore :=
  { arb_type := o.arb_type
    symbol := o.symbol
    buy_exchange := o.buy_exchange
    buy_price := o.buy_price
    sell_exchange := o.sell_exchange
    sell_price := o.sell_price
    spread := o.spread
    net_profit := o.net_profit
    gross_profit := o.gross_profit
    max_size := o.max_size
    execution_time_ms := o.execution_time_ms
    confidence := o.confidence }

/-- The decision content of one execution: which opportunity (up to id and
timestamp), at which size, for which estimated profit. -/
def Execution.decision (e : Execution) : OppCore × ℚ × ℚ :=
  (e.opp.core, e.size, e.estimated_profit)

/-- The ranking order carried to core opportunities. -/
def byNetProfitDescCore (a b : OppCore) : Prop :=
  b.net_profit ≤ a.net_profit

instance : DecidableRel byNetProfitDescCore :=
  fun a b => inferInstanceAs (Decidable (b.net_profit ≤ a.net_profit))

/-- Core image of `execute_arbitrage`: the sizing decision as a function of
the time-independent fields alone. -/
def executeCore (c : OppCore) (budget : ℚ) : Option (OppCore × ℚ × ℚ) :=
  let size := min c.max_size (budget * 0.1)
  if size < 10 then none
  else some (c, size, size * (c.net_profit / 100))

/-- `runCycles` chains `scan_all` over a list of cycles, each cycle given
by its budget snapshot and its wall-clock reading, threading the
statistics through. -/
def runCycles (eng : Engine) (stats : Stats) (cycles : List (ℚ × ℚ)) : Stats :=
  cycles.foldl (fun st c => (scan_all eng st c.1 c.2).stats) stats

/-- Transcription of claim C2's sizing rule, for comparison with
`runGate`: each candidate is sized at `min(maxSize, 10% of the REMAINING
budget)`; a size below the $10 minimum is skipped without consuming
budget; an executed size is deducted from the remaining budget before the
next candidate. -/
def specGateSizes : List ArbitrageOpportunity → ℚ → List ℚ
  | [], _ => []
  | o :: rest, remaining =>
    let size := min o.max_size (remaining * 0.1)
    if size < 10 then specGateSizes rest remaining
    else size :: specGateSizes rest (remaining - size)

/-- Transcription of claim C8's selection rule, for comparison with
`runGate`: the top three (by the already-ranked order) among the
opportunities whose confidence is at least 0.7. -/
def specTopConfident (profitable : List ArbitrageOpportunity) :
    List ArbitrageOpportunity :=
  (profitable.filter fun o => decide ((0.7 : ℚ) ≤ o.confidence)).take 3

/- Concrete scenarios used by the counterexamples and witnesses below. -/

/-- An exchange with no reachable market data: every ticker fetch raises. -/
def exOffline (name : String) : Exchange :=
  { name := name, fetchTicker := fun _ => none, markets := [] }

/-- Engine with no venues, default-like configuration. -/
def engEmpty : Engine :=
  { exchanges := []
    config :=
      { trading_pairs := ["BTC/USDT"]
        min_arbitrage_profit_pct := 0.08
        paper_trading := true } }

/-- Claim C3 scenario, buy side: kucoin (0.1% fee) asking 100. -/
def exC3buy : Exchange :=
  { name := "kucoin"
    fetchTicker := fun s =>
      if s = "BTC/USDT" then
        some { bid := 99.9, ask := 100, last := 100, quoteVolume := 1000000 }
      else none
    markets := [] }

/-- Claim C3 scenario, sell side: mexc (0.1% fee) bidding 100.5. -/
def exC3sell : Exchange :=
  { name := "mexc"
    fetchTicker := fun s =>
      if s = "BTC/USDT" then
        some { bid := 100.5, ask := 100.6, last := 100.5, quoteVolume := 2000000 }
      else none
    markets := [] }

/-- Claim C3 engine: the two venues above with the minimum-profit
threshold configured at 0.4%. -/
def engC3 : Engine :=
  { exchanges := [exC3buy, exC3sell]
    config :=
      { trading_pairs := ["BTC/USDT"]
        min_arbitrage_profit_pct := 0.4
        paper_trading := true } }

/-- Claim C1 scenario, buy side: binance (0.075% fee) asking 100. -/
def exC1buy : Exchange :=
  { name := "binance"
    fetchTicker := fun s =>
      if s = "BTC/USDT" then
        some { bid := 99.8, ask := 100, last := 100, quoteVolume := 1000000 }
      else none
    markets := [] }

/-- Claim C1 scenario, sell side: bybit (0.075% fee) bidding 100.3. -/
def exC1sell : Exchange :=
  { name := "bybit"
    fetchTicker := fun s =>
      if s = "BTC/USDT" then
        some { bid := 100.3, ask := 100.5, last := 100.3, quoteVolume := 1000000 }
      else none
    markets := [] }

/-- Claim C1 engine: gross spread 0.3%, combined fee 0.15%, net profit
0.15%, against a configured 0.2% minimum. -/
def engC1 : Engine :=
  { exchanges := [exC1buy, exC1sell]
    config :=
      { trading_pairs := ["BTC/USDT"]
        min_arbitrage_profit_pct := 0.2
        paper_trading := true } }

/-- Claim C4 witness venue: kucoin (0.1% taker fee) quoting the three legs
of the first triangular path so that the 1000-notional traversal ends at
exactly 1003. -/
def exC4 : Exchange :=
  { name := "kucoin"
    fetchTicker := fun s =>
      if s = "BTC/USDT" then some { bid := 99, ask := 100, last := 100, quoteVolume := 0 }
      else if s = "ETH/BTC" then some { bid := 0.5, ask := 0.6, last := 0.5, quoteVolume := 0 }
      else if s = "ETH/USDT" then some { bid := 200.6, ask := 201, last := 200.6, quoteVolume := 0 }
      else none
    markets := [] }

/-- Ranked candidate A for the C2 counterexample: large opportunity,
confident, max size 1000. -/
def oC2a : ArbitrageOpportunity :=
  { id := "a", arb_type := ArbitrageType.cross_exchange, symbol := "BTC/USDT"
    buy_exchange := "kucoin", buy_price := 100, sell_exchange := "mexc"
    sell_price := 101, spread := 1, net_profit := 0.8, gross_profit := 1
    max_size := 1000, execution_time_ms := 500, timestamp := 0, confidence := 0.8 }

/-- Ranked candidate B for the C2 counterexample: like A but ranked below
it. -/
def oC2b : ArbitrageOpportunity :=
  { id := "b", arb_type := ArbitrageType.cross_exchange, symbol := "ETH/USDT"
    buy_exchange := "kucoin", buy_price := 1000, sell_exchange := "mexc"
    sell_price := 1005, spread := 0.5, net_profit := 0.3, gross_profit := 0.5
    max_size := 1000, execution_time_ms := 500, timestamp := 0, confidence := 0.8 }

/-- Claim C8 engine: six venues and four symbols arranged so the scan
yields four ranked opportunities whose confidences are 0.6, 0.8, 0.8, 0.8
in descending net-profit order. -/
def engC8 : Engine :=
  { exchanges :=
      [{ name := "binance"
         fetchTicker := fun s =>
           if s = "BTC/USDT" then some { bid := 99, ask := 100, last := 100, quoteVolume := 10000 }
           else none
         markets := [] },
       { name := "bybit"
         fetchTicker := fun s =>
           if s = "BTC/USDT" then some { bid := 100.2, ask := 101, last := 100.2, quoteVolume := 10000 }
           else none
         markets := [] },
       { name := "okx"
         fetchTicker := fun s =>
           if s = "SOL/USDT" then some { bid := 198, ask := 200, last := 200, quoteVolume := 10000 }
           else none
         markets := [] },
       { name := "kucoin"
         fetchTicker := fun s =>
           if s = "ETH/USDT" then some { bid := 990, ask := 1000, last := 1000, quoteVolume := 10000 }
           else if s = "XRP/USDT" then some { bid := 495, ask := 500, last := 500, quoteVolume := 10000 }
           else none
         markets := [] },
       { name := "mexc"
         fetchTicker := fun s =>
           if s = "ETH/USDT" then some { bid := 1002.4, ask := 1010, last := 1002.4, quoteVolume := 10000 }
           else none
         markets := [] },
       { name := "gate"
         fetchTicker := fun s =>
           if s = "SOL/USDT" then some { bid := 200.42, ask := 202, last := 200.42, quoteVolume := 10000 }
           else if s = "XRP/USDT" then some { bid := 501.1, ask := 505, last := 501.1, quoteVolume := 10000 }
           else none
         markets := [] }]
    config :=
      { trading_pairs := ["BTC/USDT", "ETH/USDT", "SOL/USDT", "XRP/USDT"]
        min_arbitrage_profit_pct := 0.08
        paper_trading := true } }

theorem funding_abs_lemma : |(0.0001 : ℚ)| = 0.0001 := by norm_num

/-- The funding-rate detector emits nothing: the placeholder rate is
below the materiality threshold. -/
theorem scan_funding_rates_eq_nil (exchanges : List Exchange) (now : ℚ) :
    scan_funding_rates exchanges now = [] := by
  unfold scan_funding_rates fundingSymbolScan
  simp only [funding_abs_lemma]
  norm_num

theorem claim_C10_funding_rates_empty (exchanges : List Exchange) (now : ℚ) :
    scan_funding_rates exchanges now = [] :=
  scan_funding_rates_eq_nil exchanges now

theorem scanTriangularPath_eq (ex : Exchange) (path : String × String × String)
    (min_pct now : ℚ) (t0 t1 t2 : Ticker)
    (h0 : ex.fetchTicker path.1 = some t0) (h1 : ex.fetchTicker path.2.1 = some t1)
    (h2 : ex.fetchTicker path.2.2 = some t2) :
    scanTriangularPath ex path min_pct now =
      if min_pct / 100 <
          (1000 / t0.ask * t1.bid * t2.bid - 1000) / 1000 - 3 * fee_rates ex.name / 100 then
        [{ id := "tri_" ++ ex.name ++ "_" ++ path.1 ++ "_" ++ toString now
           arb_type := ArbitrageType.triangular
           symbol := path.1 ++ "->" ++ path.2.1 ++ "->" ++ path.2.2
           buy_exchange := ex.name
           buy_price := t0.ask
           sell_exchange := ex.name
           sell_price := t2.bid
           spread := (1000 / t0.ask * t1.bid * t2.bid - 1000) / 1000 * 100
           net_profit :=
             ((1000 / t0.ask * t1.bid * t2.bid - 1000) / 1000 - 3 * fee_rates ex.name / 100) * 100
           gross_profit := (1000 / t0.ask * t1.bid * t2.bid - 1000) / 1000 * 100
           max_size := 1000
           execution_time_ms := 300
           timestamp := now
           confidence := 0.7 }]
      else [] := by
  unfold scanTriangularPath
  rw [h0, h1, h2]

theorem claim_C4_triangular (ex : Exchange) (path : String × String × String)
    (min_pct now : ℚ) (t0 t1 t2 : Ticker)
    (h0 : ex.fetchTicker path.1 = some t0) (h1 : ex.fetchTicker path.2.1 = some t1)
    (h2 : ex.fetchTicker path.2.2 = some t2) :
    (scanTriangularPath ex path min_pct now ≠ [] ↔
        min_pct / 100 <
          (1000 / t0.ask * t1.bid * t2.bid - 1000) / 1000 - 3 * fee_rates ex.name / 100)
    ∧ ∀ o ∈ scanTriangularPath ex path min_pct now,
        o.gross_profit = (1000 / t0.ask * t1.bid * t2.bid - 1000) / 1000 * 100 ∧
        o.net_profit =
          ((1000 / t0.ask * t1.bid * t2.bid - 1000) / 1000 - 3 * fee_rates ex.name / 100) * 100 ∧
        o.max_size = 1000 := by
  rw [scanTriangularPath_eq ex path min_pct now t0 t1 t2 h0 h1 h2]
  by_cases hc : min_pct / 100 <
      (1000 / t0.ask * t1.bid * t2.bid - 1000) / 1000 - 3 * fee_rates ex.name / 100
  · simp [hc]
  · simp [hc]

theorem claim_C4_witness :
    (exC4.fetchTicker "BTC/USDT" = some { bid := 99, ask := 100, last := 100, quoteVolume := 0 })
    ∧ scanTriangularPath exC4 ("BTC/USDT", "ETH/BTC", "ETH/USDT") 0 0 = [] := by
  constructor
  · simp [exC4]
  · have h := claim_C4_triangular exC4 ("BTC/USDT", "ETH/BTC", "ETH/USDT") 0 0
      { bid := 99, ask := 100, last := 100, quoteVolume := 0 }
      { bid := 0.5, ask := 0.6, last := 0.5, quoteVolume := 0 }
      { bid := 200.6, ask := 201, last := 200.6, quoteVolume := 0 }
      (by simp [exC4]) (by simp [exC4]) (by simp [exC4])
    by_contra hne
    have h2 := h.1.mp hne
    simp +decide [fee_rates, exC4] at h2
    norm_num at h2

theorem claim_C1_filter_violation :
    (scan_all engC1 ⟨0, 0, 0⟩ 1000 0).opportunities.map (fun o => o.net_profit) =
        [3/20]
    ∧ (3 : ℚ)/20 < engC1.config.min_arbitrage_profit_pct := by
  constructor
  · simp +decide [scan_all, profitableOpps, detectorResults, mergeResults,
      scan_cross_exchange, scan_triangular, scan_funding_rates, scan_stablecoins,
      scanSymbolCross, collectPrices, crossDir, allPairs, scanTriangularPath,
      triangular_paths, fundingSymbolScan, stablecoin_pairs, scanStablePair,
      engC1, exC1buy, exC1sell, fee_rates, funding_abs_lemma,
      List.insertionSort, List.orderedInsert, byNetProfitDesc]
    norm_num [List.insertionSort, List.orderedInsert, byNetProfitDesc]
  · norm_num [engC1]

theorem claim_C3_cross_example :
    ((crossDir "BTC/USDT"
          ("kucoin", { bid := 99.9, ask := 100, last := 100, quoteVolume := 1000000 })
          ("mexc", { bid := 100.5, ask := 100.6, last := 100.5, quoteVolume := 2000000 }) 0).map
        (fun o => (o.gross_profit, o.net_profit)) = some (1/2, 3/10))
    ∧ (∀ (symbol : String) (buy sell : String × Ticker) (now : ℚ),
        (crossDir symbol buy sell now).isSome ↔
          (fee_rates buy.1 + fee_rates sell.1) / 100 <
            (sell.2.bid - buy.2.ask) / buy.2.ask)
    ∧ (scan_all engC3 ⟨0, 0, 0⟩ 1000 0).opportunities.map (fun o => o.net_profit) =
        [3/10]
    ∧ (3 : ℚ)/10 < engC3.config.min_arbitrage_profit_pct := by
  refine ⟨?_, ?_, ?_, ?_⟩
  · simp +decide [crossDir, fee_rates]
    norm_num
  · intro symbol buy sell now
    by_cases hc : (fee_rates buy.1 + fee_rates sell.1) / 100 <
        (sell.2.bid - buy.2.ask) / buy.2.ask
    · simp [crossDir, gt_iff_lt, hc]
    · simp [crossDir, gt_iff_lt, hc]
  · simp +decide [scan_all, profitableOpps, detectorResults, mergeResults,
      scan_cross_exchange, scan_triangular, scan_funding_rates, scan_stablecoins,
      scanSymbolCross, collectPrices, crossDir, allPairs, scanTriangularPath,
      triangular_paths, fundingSymbolScan, stablecoin_pairs, scanStablePair,
      engC3, exC3buy, exC3sell, fee_rates, funding_abs_lemma,
      List.insertionSort, List.orderedInsert, byNetProfitDesc]
    norm_num [List.insertionSort, List.orderedInsert, byNetProfitDesc]
  · norm_num [engC3]

/-- Claim C5: when the arbitrage budget read at cycle start is zero or
negative, `scan_all` short-circuits: the detectors never run, nothing is
emitted or executed, the result list is empty, and the only statistics
change is the scan-counter increment (a normal skip, not an error: the
function is total and returns the empty result). -/
theorem claim_C5_budget_short_circuit (eng : Engine) (stats : Stats)
    (arb_budget now : ℚ) (h : arb_budget ≤ 0) :
    scan_all eng stats arb_budget now =
      ⟨{ stats with total_scans := stats.total_scans + 1 }, [], []⟩ := by
  simp [scan_all, h]

/-- Witness for claim C5 at budget 0. -/
theorem claim_C5_witness :
    (0 : ℚ) ≤ 0 ∧ scan_all engEmpty ⟨5, 7, 11⟩ 0 0 = ⟨⟨6, 7, 11⟩, [], []⟩ :=
  ⟨le_refl 0, by rw [claim_C5_budget_short_circuit engEmpty ⟨5, 7, 11⟩ 0 0 (le_refl 0)]⟩

/-- Folding the result-merge step from any accumulator equals the
accumulator followed by the fold from the empty one. -/
theorem mergeResults_acc
    (step : List ArbitrageOpportunity → Except String (List ArbitrageOpportunity) →
      List ArbitrageOpportunity)
    (hstep : ∀ acc r, step acc r =
      match r with
      | Except.ok l => acc ++ l
      | Except.error _ => acc)
    (rs : List (Except String (List ArbitrageOpportunity)))
    (acc : List ArbitrageOpportunity) :
    rs.foldl step acc = acc ++ rs.foldl step [] := by
  induction rs generalizing acc with
  | nil => simp
  | cons r rs ih =>
    cases r with
    | ok l =>
      simp only [List.foldl_cons, hstep]
      rw [ih (acc ++ l), ih ([] ++ l)]
      simp
    | error msg =>
      simp only [List.foldl_cons, hstep]
      exact ih acc

/-- Merging a concatenation of detector results merges each part. -/
theorem mergeResults_append (rs1 rs2 : List (Except String (List ArbitrageOpportunity))) :
    mergeResults (rs1 ++ rs2) = mergeResults rs1 ++ mergeResults rs2 := by
  unfold mergeResults
  rw [List.foldl_append]
  exact mergeResults_acc _ (fun acc r => rfl) rs2 (List.foldl _ [] rs1)

/-- Claim C7: failure isolation.  A venue whose ticker fetch fails for a
symbol is merely excluded from that symbol's comparison set (the
cross-exchange scan of the symbol is unchanged by deleting the failing
venue), and a detector that raises contributes an empty result to the
merge without disturbing the other detectors' contributions; neither kind
of error escapes the cycle. -/
theorem claim_C7_failure_isolation :
    (∀ (l1 l2 : List Exchange) (ex : Exchange) (symbol : String) (now : ℚ),
        ex.fetchTicker symbol = none →
          scanSymbolCross (l1 ++ ex :: l2) symbol now = scanSymbolCross (l1 ++ l2) symbol now)
    ∧ (∀ (rs1 rs2 : List (Except String (List ArbitrageOpportunity))) (msg : String),
        mergeResults (rs1 ++ Except.error msg :: rs2) = mergeResults (rs1 ++ rs2)) := by
  constructor
  · intro l1 l2 ex symbol now h
    simp [scanSymbolCross, collectPrices, List.filterMap_append, h]
  · intro rs1 rs2 msg
    rw [mergeResults_append, mergeResults_append rs1 rs2]
    rfl

/-- Witness for claim C7: a concrete offline venue and a concrete failed
detector slot. -/
theorem claim_C7_witness :
    (exOffline "okx").fetchTicker "BTC/USDT" = none
    ∧ scanSymbolCross [exC3buy, exOffline "okx", exC3sell] "BTC/USDT" 0 =
        scanSymbolCross [exC3buy, exC3sell] "BTC/USDT" 0
    ∧ mergeResults [Except.error "boom", Except.ok [oC2a]] =
        mergeResults [Except.ok [oC2a]] :=
  ⟨rfl,
   claim_C7_failure_isolation.1 [exC3buy] [exC3sell] (exOffline "okx") "BTC/USDT" 0 rfl,
   claim_C7_failure_isolation.2 [] [Except.ok [oC2a]] "boom"⟩

/-- Counterexample to claim C2: with a 1000 budget and two ranked
candidates of max size 1000 each, the gate sizes both at
min(1000, 10% of the cycle-start snapshot) = 100, whereas the claimed
remaining-budget rule would size the second at min(1000, 10% of 900) = 90.
Budget is never deducted inside a cycle, so the "unavailable to
opportunity k+1" part of the claim is false on the code. -/
theorem claim_C2_counterexample :
    (runGate [oC2a, oC2b] 1000).map (fun e => e.size) = [100, 100]
    ∧ specGateSizes
        (([oC2a, oC2b].take 3).filter fun o => decide ((0.7 : ℚ) ≤ o.confidence)) 1000 =
        [100, 90]
    ∧ ¬ ((runGate [oC2a, oC2b] 1000).map (fun e => e.size) =
          specGateSizes
            (([oC2a, oC2b].take 3).filter fun o => decide ((0.7 : ℚ) ≤ o.confidence)) 1000) := by
  refine ⟨?_, ?_, ?_⟩ <;>
    norm_num [runGate, execute_arbitrage, specGateSizes, oC2a, oC2b, min_def,
      List.filterMap_cons, List.filter_cons]

/-- Claim C2 as amended: every executed opportunity is sized at
min(maxSize, 10% of the cycle-start budget snapshot) - the same snapshot
for every opportunity of the cycle, with no deduction; sizes below the $10
minimum are skipped (nothing consumes budget); and because at most three
opportunities execute per cycle, the cumulative allocated size never
exceeds 3 x 10% of the snapshot, hence never the snapshot itself. -/
theorem claim_C2_amended (profitable : List ArbitrageOpportunity) (budget : ℚ)
    (hb : 0 ≤ budget) :
    (∀ e ∈ runGate profitable budget,
        e.size = min e.opp.max_size (budget * 0.1) ∧ 10 ≤ e.size ∧ e.size ≤ budget * 0.1)
    ∧ (runGate profitable budget).length ≤ 3
    ∧ ((runGate profitable budget).map (fun e => e.size)).sum ≤ budget := by
  have hmem : ∀ e ∈ runGate profitable budget,
      e.size = min e.opp.max_size (budget * 0.1) ∧ 10 ≤ e.size ∧ e.size ≤ budget * 0.1 := by
    intro e he
    simp only [runGate, List.mem_filterMap] at he
    obtain ⟨o, _, hexec⟩ := he
    unfold execute_arbitrage at hexec
    by_cases hlt : min o.max_size (budget * 0.1) < 10
    · simp [hlt] at hexec
    · simp [hlt] at hexec
      subst hexec
      refine ⟨rfl, by linarith [not_lt.mp hlt], min_le_right _ _⟩
  have hlen : (runGate profitable budget).length ≤ 3 := by
    calc (runGate profitable budget).length
        ≤ ((profitable.take 3).filter fun o => decide ((0.7 : ℚ) ≤ o.confidence)).length :=
          List.length_filterMap_le _ _
      _ ≤ (profitable.take 3).length := List.length_filter_le _ _
      _ ≤ 3 := List.length_take_le _ _
  refine ⟨hmem, hlen, ?_⟩
  have hub : ∀ x ∈ (runGate profitable budget).map (fun e => e.size), x ≤ budget * 0.1 := by
    intro x hx
    obtain ⟨e, he, rfl⟩ := List.mem_map.mp hx
    exact (hmem e he).2.2
  have h1 : ((runGate profitable budget).map (fun e => e.size)).sum ≤
      ((runGate profitable budget).map (fun e => e.size)).length • (budget * 0.1) :=
    List.sum_le_card_nsmul _ _ hub
  have h2 : ((runGate profitable budget).map (fun e => e.size)).length ≤ 3 := by
    simpa using hlen
  have h3 : ((runGate profitable budget).map (fun e => e.size)).length • (budget * 0.1) ≤
      3 • (budget * 0.1) := by
    apply nsmul_le_nsmul_left
    · positivity
    · exact h2
  have h4 : (3 : ℕ) • (budget * 0.1) = 3 * (budget * 0.1) := by
    simp [nsmul_eq_mul]
  calc ((runGate profitable budget).map (fun e => e.size)).sum
      ≤ _ • (budget * 0.1) := h1
    _ ≤ 3 • (budget * 0.1) := h3
    _ = 3 * (budget * 0.1) := h4
    _ ≤ budget := by linarith

/-- Witness for the amended claim C2 at a concrete candidate list and
budget. -/
theorem claim_C2_amended_witness :
    (0 : ℚ) ≤ 1000 ∧
    ((∀ e ∈ runGate [oC2a] 1000,
        e.size = min e.opp.max_size (1000 * 0.1) ∧ 10 ≤ e.size ∧ e.size ≤ 1000 * 0.1)
     ∧ (runGate [oC2a] 1000).length ≤ 3
     ∧ ((runGate [oC2a] 1000).map (fun e => e.size)).sum ≤ 1000) :=
  ⟨by norm_num, claim_C2_amended [oC2a] 1000 (by norm_num)⟩

/-- Every execution the gate performs comes from one of the first three
ranked opportunities, has confidence at least 0.7, is sized at
min(maxSize, 10% of the budget it was handed), is at least the $10
minimum, and estimates profit as size x netProfit%. -/
theorem runGate_mem (l : List ArbitrageOpportunity) (b : ℚ) :
    ∀ e ∈ runGate l b,
      (0.7 : ℚ) ≤ e.opp.confidence ∧ e.opp ∈ l.take 3 ∧
      e.size = min e.opp.max_size (b * 0.1) ∧ 10 ≤ e.size ∧
      e.estimated_profit = e.size * (e.opp.net_profit / 100) := by
  intro e he
  simp only [runGate, List.mem_filterMap, List.mem_filter, decide_eq_true_eq] at he
  obtain ⟨o, ⟨htake, hconf⟩, hexec⟩ := he
  unfold execute_arbitrage at hexec
  by_cases hlt : min o.max_size (b * 0.1) < 10
  · simp [hlt] at hexec
  · simp [hlt] at hexec
    subst hexec
    exact ⟨hconf, htake, rfl, not_lt.mp hlt, rfl⟩

/-- The gate executes at most three opportunities per cycle. -/
theorem runGate_length_le (l : List ArbitrageOpportunity) (b : ℚ) :
    (runGate l b).length ≤ 3 := by
  calc (runGate l b).length
      ≤ ((l.take 3).filter fun o => decide ((0.7 : ℚ) ≤ o.confidence)).length :=
        List.length_filterMap_le _ _
    _ ≤ (l.take 3).length := List.length_filter_le _ _
    _ ≤ 3 := List.length_take_le _ _

/-- Claim C8 as amended: the executed opportunities are those among the
top three by descending net profit whose confidence is at least 0.7 (and
which meet the minimum size); at most three execute per cycle, none with
confidence below 0.7 executes, and the ranked list really is sorted by
net profit descending. -/
theorem claim_C8_amended (eng : Engine) (stats : Stats) (arb_budget now : ℚ) :
    ((scan_all eng stats arb_budget now).executions.length ≤ 3)
    ∧ (∀ e ∈ (scan_all eng stats arb_budget now).executions,
        (0.7 : ℚ) ≤ e.opp.confidence ∧
          e.opp ∈ (scan_all eng stats arb_budget now).opportunities.take 3)
    ∧ (scan_all eng stats arb_budget now).opportunities.Sorted byNetProfitDesc := by
  by_cases hb : arb_budget ≤ 0
  · simp [scan_all, hb]
  · simp only [scan_all, if_neg hb]
    refine ⟨runGate_length_le _ _, ?_, ?_⟩
    · intro e he
      have h := runGate_mem _ _ e he
      exact ⟨h.1, h.2.1⟩
    · exact List.sorted_insertionSort byNetProfitDesc _

/-- Counterexample to claim C8 as stated: in a cycle whose four ranked
opportunities have confidences 0.6, 0.8, 0.8, 0.8 (descending net profit),
the code takes the top three FIRST and only then filters by confidence, so
it executes two opportunities, while the claimed rule (top three among the
sufficiently confident) would fund three - the rank-4 confident
opportunity is never passed to the gate. -/
theorem claim_C8_counterexample :
    (scan_all engC8 ⟨0, 0, 0⟩ 1000 0).executions.map (fun e => e.opp.symbol) =
        ["ETH/USDT", "SOL/USDT"]
    ∧ (specTopConfident (scan_all engC8 ⟨0, 0, 0⟩ 1000 0).opportunities).map
        (fun o => o.symbol) = ["ETH/USDT", "SOL/USDT", "XRP/USDT"]
    ∧ ¬ ((scan_all engC8 ⟨0, 0, 0⟩ 1000 0).executions.map (fun e => e.opp.symbol) =
          (specTopConfident (scan_all engC8 ⟨0, 0, 0⟩ 1000 0).opportunities).map
            (fun o => o.symbol)) := by
  refine ⟨?_, ?_, ?_⟩ <;>
    · simp +decide [scan_all, profitableOpps, detectorResults, mergeResults,
        scan_cross_exchange, scan_triangular, scan_funding_rates, scan_stablecoins,
        scanSymbolCross, collectPrices, crossDir, allPairs, scanTriangularPath,
        triangular_paths, fundingSymbolScan, stablecoin_pairs, scanStablePair,
        engC8, fee_rates, funding_abs_lemma, runGate, execute_arbitrage,
        specTopConfident, min_def, List.filterMap_cons, List.filter_cons,
        List.insertionSort, List.orderedInsert, byNetProfitDesc]
      norm_num [List.insertionSort, List.orderedInsert, byNetProfitDesc,
        List.filterMap_cons, List.filter_cons, min_def]

/-- A cross-exchange opportunity is only emitted with strictly positive
net profit (spread strictly above the combined fee). -/
theorem crossDir_net_pos {symbol : String} {buy sell : String × Ticker} {now : ℚ}
    {o : ArbitrageOpportunity} (h : crossDir symbol buy sell now = some o) :
    0 < o.net_profit := by
  simp only [crossDir] at h
  split at h
  · rename_i hc
    simp only [Option.some.injEq] at h
    subst h
    simp only [gt_iff_lt] at hc
    have : 0 < (sell.2.bid - buy.2.ask) / buy.2.ask -
        (fee_rates buy.1 + fee_rates sell.1) / 100 := by linarith
    nlinarith
  · exact absurd h (by simp)

/-- Every cross-exchange detector output has strictly positive net
profit. -/
theorem scan_cross_net_pos (exchanges : List Exchange) (pairs : List String) (now : ℚ) :
    ∀ o ∈ scan_cross_exchange exchanges pairs now, 0 < o.net_profit := by
  intro o ho
  unfold scan_cross_exchange at ho
  split at ho
  · simp at ho
  · rw [List.mem_flatMap] at ho
    obtain ⟨symbol, _, ho⟩ := ho
    simp only [scanSymbolCross] at ho
    split at ho
    · simp at ho
    · rw [List.mem_flatMap] at ho
      obtain ⟨pr, _, ho⟩ := ho
      rw [List.mem_append] at ho
      rcases ho with ho | ho <;>
        exact crossDir_net_pos (by simpa using ho)

/-- Every triangular detector output has net profit strictly above the
configured minimum percentage. -/
theorem scan_triangular_net_gt (exchanges : List Exchange) (min_pct now : ℚ) :
    ∀ o ∈ scan_triangular exchanges min_pct now, min_pct < o.net_profit := by
  intro o ho
  unfold scan_triangular at ho
  rw [List.mem_flatMap] at ho
  obtain ⟨ex, _, ho⟩ := ho
  rw [List.mem_flatMap] at ho
  obtain ⟨p, _, ho⟩ := ho
  simp only [scanTriangularPath] at ho
  split at ho
  · split at ho
    · rename_i hgt
      simp only [List.mem_singleton] at ho
      subst ho
      simp only [gt_iff_lt] at hgt
      nlinarith
    · simp at ho
  · simp at ho

/-- Every stablecoin detector output has strictly positive net profit
(deviation above 0.002 minus the 0.001 allowance). -/
theorem scan_stablecoins_net_pos (exchanges : List Exchange) (now : ℚ) :
    ∀ o ∈ scan_stablecoins exchanges now, 0 < o.net_profit := by
  intro o ho
  unfold scan_stablecoins at ho
  rw [List.mem_flatMap] at ho
  obtain ⟨ex, _, ho⟩ := ho
  rw [List.mem_flatMap] at ho
  obtain ⟨p, _, ho⟩ := ho
  simp only [scanStablePair] at ho
  split at ho
  · split at ho
    · split at ho
      · rename_i hdev
        simp only [List.mem_singleton] at ho
        subst ho
        simp only [gt_iff_lt] at hdev
        have h2 : ((0.002 : ℚ)) = 1/500 := by norm_num
        nlinarith [hdev]
      · simp at ho
    · simp at ho
  · simp at ho

/-- The merged cycle list is the four detectors' outputs in task order. -/
theorem mergeResults_detectors (eng : Engine) (now : ℚ) :
    mergeResults (detectorResults eng now) =
      scan_cross_exchange eng.exchanges eng.config.trading_pairs now ++
        (scan_triangular eng.exchanges eng.config.min_arbitrage_profit_pct now ++
          (scan_funding_rates eng.exchanges now ++ scan_stablecoins eng.exchanges now)) := by
  simp [mergeResults, detectorResults]

/-- With a nonnegative configured minimum, every opportunity in the
filtered/ranked list has nonnegative net profit. -/
theorem profitableOpps_net_nonneg (eng : Engine) (now : ℚ)
    (hmin : 0 ≤ eng.config.min_arbitrage_profit_pct) :
    ∀ o ∈ profitableOpps eng now, 0 ≤ o.net_profit := by
  intro o ho
  unfold profitableOpps at ho
  rw [List.mem_insertionSort] at ho
  have hm := List.mem_of_mem_filter ho
  rw [mergeResults_detectors] at hm
  simp only [List.mem_append] at hm
  rcases hm with h | h | h | h
  · exact le_of_lt (scan_cross_net_pos _ _ _ o h)
  · exact le_of_lt (lt_of_le_of_lt hmin (scan_triangular_net_gt _ _ _ o h))
  · rw [scan_funding_rates_eq_nil] at h
    simp at h
  · exact le_of_lt (scan_stablecoins_net_pos _ _ o h)

/-- The ranked list a cycle returns does not depend on the statistics the
cycle started from. -/
theorem scan_all_opportunities_indep (eng : Engine) (s1 s2 : Stats) (b now : ℚ) :
    (scan_all eng s1 b now).opportunities = (scan_all eng s2 b now).opportunities := by
  by_cases hb : b ≤ 0 <;> simp [scan_all, hb]

/-- One cycle's statistics update: the scan counter advances by exactly
one; the opportunity counter and (for a nonnegative configured minimum)
the cumulative profit never decrease; and a cycle whose ranked list is
empty leaves counter and profit unchanged. -/
theorem scan_all_stats_step (eng : Engine) (stats : Stats) (b now : ℚ)
    (hmin : 0 ≤ eng.config.min_arbitrage_profit_pct) :
    (scan_all eng stats b now).stats.total_scans = stats.total_scans + 1 ∧
    stats.total_opportunities ≤ (scan_all eng stats b now).stats.total_opportunities ∧
    stats.total_profit ≤ (scan_all eng stats b now).stats.total_profit ∧
    ((scan_all eng stats b now).opportunities = [] →
      (scan_all eng stats b now).stats.total_opportunities = stats.total_opportunities ∧
      (scan_all eng stats b now).stats.total_profit = stats.total_profit) := by
  by_cases hb : b ≤ 0
  · simp [scan_all, hb]
  · have hsum : 0 ≤
        ((runGate (profitableOpps eng now) b).map (fun e => e.estimated_profit)).sum := by
      apply List.sum_nonneg
      intro x hx
      obtain ⟨e, he, rfl⟩ := List.mem_map.mp hx
      have hm := runGate_mem _ _ e he
      have hnet : 0 ≤ e.opp.net_profit :=
        profitableOpps_net_nonneg eng now hmin e.opp (List.take_subset _ _ hm.2.1)
      have hsize : 0 ≤ e.size := le_trans (by norm_num) hm.2.2.2.1
      rw [hm.2.2.2.2]
      positivity
    simp only [scan_all, if_neg hb]
    refine ⟨trivial, Nat.le_add_right _ _, ?_, ?_⟩
    · by_cases hp : eng.config.paper_trading
      · simp only [hp, if_true]
        simp
        linarith
      · simp [hp]
    · intro hopp
      constructor
      · simp [hopp]
      · simp [hopp, runGate]

/-- Claim C6: statistics monotonicity.  Per call, `total_scans` rises by
exactly one and `total_opportunities`/`total_profit` never decrease (the
profit part uses that every executed opportunity has nonnegative net
profit, which holds whenever the configured minimum percentage is
nonnegative); over any N cycles, `total_scans` rises by exactly N, and if
no opportunity passed the filters in any of them, `total_opportunities`
and `total_profit` are unchanged. -/
theorem claim_C6_stats_monotone (eng : Engine)
    (hmin : 0 ≤ eng.config.min_arbitrage_profit_pct) :
    (∀ (stats : Stats) (b now : ℚ),
        (scan_all eng stats b now).stats.total_scans = stats.total_scans + 1 ∧
        stats.total_opportunities ≤ (scan_all eng stats b now).stats.total_opportunities ∧
        stats.total_profit ≤ (scan_all eng stats b now).stats.total_profit)
    ∧ (∀ (cycles : List (ℚ × ℚ)) (stats : Stats),
        (runCycles eng stats cycles).total_scans = stats.total_scans + cycles.length ∧
        ((∀ c ∈ cycles, (scan_all eng stats c.1 c.2).opportunities = []) →
          (runCycles eng stats cycles).total_opportunities = stats.total_opportunities ∧
          (runCycles eng stats cycles).total_profit = stats.total_profit)) := by
  constructor
  · intro stats b now
    have h := scan_all_stats_step eng stats b now hmin
    exact ⟨h.1, h.2.1, h.2.2.1⟩
  · intro cycles stats
    induction cycles generalizing stats with
    | nil => simp [runCycles]
    | cons c cs ih =>
      have hstep := scan_all_stats_step eng stats c.1 c.2 hmin
      have hrun : runCycles eng stats (c :: cs) =
          runCycles eng ((scan_all eng stats c.1 c.2).stats) cs := rfl
      constructor
      · rw [hrun, (ih _).1, hstep.1]
        simp only [List.length_cons]
        omega
      · intro hall
        have hhead := hall c (List.mem_cons_self c cs)
        have hrest : ∀ c' ∈ cs,
            (scan_all eng ((scan_all eng stats c.1 c.2).stats) c'.1 c'.2).opportunities = [] := by
          intro c' hc'
          rw [scan_all_opportunities_indep eng _ stats]
          exact hall c' (List.mem_cons_of_mem _ hc')
        have h2 := (ih ((scan_all eng stats c.1 c.2).stats)).2 hrest
        have h3 := hstep.2.2.2 hhead
        rw [hrun]
        exact ⟨by rw [h2.1, h3.1], by rw [h2.2, h3.2]⟩

/-- Witness for claim C6 at a concrete engine with minimum 0.08%. -/
theorem claim_C6_witness :
    (0 : ℚ) ≤ engEmpty.config.min_arbitrage_profit_pct ∧
    ((∀ (stats : Stats) (b now : ℚ),
        (scan_all engEmpty stats b now).stats.total_scans = stats.total_scans + 1 ∧
        stats.total_opportunities ≤ (scan_all engEmpty stats b now).stats.total_opportunities ∧
        stats.total_profit ≤ (scan_all engEmpty stats b now).stats.total_profit)
     ∧ (∀ (cycles : List (ℚ × ℚ)) (stats : Stats),
        (runCycles engEmpty stats cycles).total_scans = stats.total_scans + cycles.length ∧
        ((∀ c ∈ cycles, (scan_all engEmpty stats c.1 c.2).opportunities = []) →
          (runCycles engEmpty stats cycles).total_opportunities = stats.total_opportunities ∧
          (runCycles engEmpty stats cycles).total_profit = stats.total_profit))) :=
  ⟨by norm_num [engEmpty], claim_C6_stats_monotone engEmpty (by norm_num [engEmpty])⟩

/-- Projection fact: erasure keeps the spread. -/
theorem core_spread (o : ArbitrageOpportunity) : o.core.spread = o.spread := rfl

/-- Projection fact: erasure keeps the net profit. -/
theorem core_net_profit (o : ArbitrageOpportunity) : o.core.net_profit = o.net_profit := rfl

/-- Projection fact: erasure keeps the confidence. -/
theorem core_confidence (o : ArbitrageOpportunity) : o.core.confidence = o.confidence := rfl

/-- Projection fact: erasure keeps the max size. -/
theorem core_max_size (o : ArbitrageOpportunity) : o.core.max_size = o.max_size := rfl

/-- Mapped flat-maps agree when they agree on each element. -/
theorem map_flatMap_eq {α β γ : Type} (l : List α) (f g : α → List β) (F : β → γ)
    (h : ∀ a ∈ l, (f a).map F = (g a).map F) :
    (l.flatMap f).map F = (l.flatMap g).map F := by
  induction l with
  | nil => rfl
  | cons x xs ih =>
    simp only [List.flatMap_cons, List.map_append]
    rw [h x (List.mem_cons_self x xs), ih fun a ha => h a (List.mem_cons_of_mem x ha)]

/-- Equal mapped options have equal mapped `toList`s. -/
theorem option_toList_map {α β : Type} (F : α → β) (o1 o2 : Option α)
    (h : o1.map F = o2.map F) : o1.toList.map F = o2.toList.map F := by
  cases o1 <;> cases o2 <;> simp_all

/-- The wall clock only stamps id/timestamp of a cross-exchange
emission: its core is time-independent. -/
theorem crossDir_core (symbol : String) (buy sell : String × Ticker) (n1 n2 : ℚ) :
    (crossDir symbol buy sell n1).map ArbitrageOpportunity.core =
      (crossDir symbol buy sell n2).map ArbitrageOpportunity.core := by
  simp only [crossDir]
  split <;> rfl

/-- Per-symbol cross-exchange scan, up to erasure, is time-independent. -/
theorem scanSymbolCross_core (exchanges : List Exchange) (symbol : String) (n1 n2 : ℚ) :
    (scanSymbolCross exchanges symbol n1).map ArbitrageOpportunity.core =
      (scanSymbolCross exchanges symbol n2).map ArbitrageOpportunity.core := by
  simp only [scanSymbolCross]
  split
  · rfl
  · apply map_flatMap_eq
    intro pr _
    simp only [List.map_append]
    rw [option_toList_map _ _ _ (crossDir_core symbol pr.1 pr.2 n1 n2),
      option_toList_map _ _ _ (crossDir_core symbol pr.2 pr.1 n1 n2)]

/-- The cross-exchange detector, up to erasure, is time-independent. -/
theorem scan_cross_exchange_core (exchanges : List Exchange) (pairs : List String)
    (n1 n2 : ℚ) :
    (scan_cross_exchange exchanges pairs n1).map ArbitrageOpportunity.core =
      (scan_cross_exchange exchanges pairs n2).map ArbitrageOpportunity.core := by
  simp only [scan_cross_exchange]
  split
  · rfl
  · exact map_flatMap_eq _ _ _ _ fun s _ => scanSymbolCross_core exchanges s n1 n2

/-- A triangular path scan, up to erasure, is time-independent. -/
theorem scanTriangularPath_core (ex : Exchange) (p : String × String × String)
    (min_pct n1 n2 : ℚ) :
    (scanTriangularPath ex p min_pct n1).map ArbitrageOpportunity.core =
      (scanTriangularPath ex p min_pct n2).map ArbitrageOpportunity.core := by
  simp only [scanTriangularPath]
  split
  · split <;> rfl
  · rfl

/-- The triangular detector, up to erasure, is time-independent. -/
theorem scan_triangular_core (exchanges : List Exchange) (min_pct n1 n2 : ℚ) :
    (scan_triangular exchanges min_pct n1).map ArbitrageOpportunity.core =
      (scan_triangular exchanges min_pct n2).map ArbitrageOpportunity.core := by
  simp only [scan_triangular]
  refine map_flatMap_eq _ _ _ _ fun ex _ => ?_
  exact map_flatMap_eq _ _ _ _ fun p _ => scanTriangularPath_core ex p min_pct n1 n2

/-- A stablecoin pair scan, up to erasure, is time-independent. -/
theorem scanStablePair_core (ex : Exchange) (p : String) (n1 n2 : ℚ) :
    (scanStablePair ex p n1).map ArbitrageOpportunity.core =
      (scanStablePair ex p n2).map ArbitrageOpportunity.core := by
  simp only [scanStablePair]
  split
  · split
    · split <;> rfl
    · rfl
  · rfl

/-- The stablecoin detector, up to erasure, is time-independent. -/
theorem scan_stablecoins_core (exchanges : List Exchange) (n1 n2 : ℚ) :
    (scan_stablecoins exchanges n1).map ArbitrageOpportunity.core =
      (scan_stablecoins exchanges n2).map ArbitrageOpportunity.core := by
  simp only [scan_stablecoins]
  refine map_flatMap_eq _ _ _ _ fun ex _ => ?_
  exact map_flatMap_eq _ _ _ _ fun p _ => scanStablePair_core ex p n1 n2

/-- The merged opportunity list, up to erasure, is time-independent. -/
theorem merged_core (eng : Engine) (n1 n2 : ℚ) :
    (mergeResults (detectorResults eng n1)).map ArbitrageOpportunity.core =
      (mergeResults (detectorResults eng n2)).map ArbitrageOpportunity.core := by
  rw [mergeResults_detectors, mergeResults_detectors]
  simp only [List.map_append]
  rw [scan_cross_exchange_core eng.exchanges eng.config.trading_pairs n1 n2,
    scan_triangular_core eng.exchanges eng.config.min_arbitrage_profit_pct n1 n2,
    scan_funding_rates_eq_nil eng.exchanges n1, scan_funding_rates_eq_nil eng.exchanges n2,
    scan_stablecoins_core eng.exchanges n1 n2]

/-- The filtered, ranked list, up to erasure, is time-independent:
filtering and sorting read only erasure-preserved fields. -/
theorem profitableOpps_core (eng : Engine) (n1 n2 : ℚ) :
    (profitableOpps eng n1).map ArbitrageOpportunity.core =
      (profitableOpps eng n2).map ArbitrageOpportunity.core := by
  unfold profitableOpps
  have hsort : ∀ (l : List ArbitrageOpportunity),
      (l.insertionSort byNetProfitDesc).map ArbitrageOpportunity.core =
        (l.map ArbitrageOpportunity.core).insertionSort byNetProfitDescCore :=
    fun l => List.map_insertionSort byNetProfitDesc byNetProfitDescCore
      ArbitrageOpportunity.core l fun a _ b _ => Iff.rfl
  have hfilter : ∀ (l : List ArbitrageOpportunity) (m : ℚ),
      ((l.filter fun o => decide (m ≤ o.spread)).map ArbitrageOpportunity.core) =
        ((l.map ArbitrageOpportunity.core).filter fun c => decide (m ≤ c.spread)) := by
    intro l m
    rw [List.filter_map]
    rfl
  rw [hsort, hsort, hfilter, hfilter, merged_core eng n1 n2]

/-- The decision content of one execution is a function of the core
opportunity and the budget alone. -/
theorem execute_decision (o : ArbitrageOpportunity) (b : ℚ) :
    (execute_arbitrage o b).map Execution.decision = executeCore o.core b := by
  simp only [execute_arbitrage, executeCore, core_max_size, core_net_profit]
  split <;> rfl

/-- The gate's decisions are computed from the erased ranked list and the
budget alone. -/
theorem runGate_decisions (l : List ArbitrageOpportunity) (b : ℚ) :
    (runGate l b).map Execution.decision =
      (((l.map ArbitrageOpportunity.core).take 3).filter
          fun c => decide ((0.7 : ℚ) ≤ c.confidence)).filterMap
        fun c => executeCore c b := by
  unfold runGate
  rw [List.map_filterMap]
  have h1 : ∀ o, (execute_arbitrage o b).map Execution.decision = executeCore o.core b :=
    fun o => execute_decision o b
  calc ((l.take 3).filter fun o => decide ((0.7 : ℚ) ≤ o.confidence)).filterMap
        (fun o => (execute_arbitrage o b).map Execution.decision)
      = ((l.take 3).filter fun o => decide ((0.7 : ℚ) ≤ o.confidence)).filterMap
          (fun o => executeCore o.core b) := by
        simp only [h1]
    _ = (((l.take 3).filter fun o => decide ((0.7 : ℚ) ≤ o.confidence)).map
          ArbitrageOpportunity.core).filterMap (fun c => executeCore c b) := by
        rw [List.filterMap_map]
        rfl
    _ = _ := by
        rw [← List.map_take, List.filter_map]
        exact congrArg _ (congrArg _ (List.filter_congr fun o _ => by
          simp [Function.comp, core_confidence]))

/-- Claim C9: determinism.  Two cycles over the same venue snapshots,
configuration, budget and starting statistics - differing only in the
wall-clock reading, the one genuinely run-dependent input - produce the
same ranked opportunity list up to the clock-stamped id/timestamp fields,
execute the same opportunities at the same sizes and estimated profits,
and leave identical statistics. -/
theorem claim_C9_determinism (eng : Engine) (stats : Stats) (b n1 n2 : ℚ) :
    ((scan_all eng stats b n1).opportunities.map ArbitrageOpportunity.core =
      (scan_all eng stats b n2).opportunities.map ArbitrageOpportunity.core)
    ∧ ((scan_all eng stats b n1).executions.map Execution.decision =
        (scan_all eng stats b n2).executions.map Execution.decision)
    ∧ (scan_all eng stats b n1).stats = (scan_all eng stats b n2).stats := by
  by_cases hb : b ≤ 0
  · simp [scan_all, hb]
  · have hprof := profitableOpps_core eng n1 n2
    have hgate : (runGate (profitableOpps eng n1) b).map Execution.decision =
        (runGate (profitableOpps eng n2) b).map Execution.decision := by
      rw [runGate_decisions, runGate_decisions, hprof]
    have hlen : (profitableOpps eng n1).length = (profitableOpps eng n2).length := by
      have h := congrArg List.length hprof
      simpa using h
    have hsum : ((runGate (profitableOpps eng n1) b).map (fun e => e.estimated_profit)).sum =
        ((runGate (profitableOpps eng n2) b).map (fun e => e.estimated_profit)).sum := by
      have h2 : ∀ (l : List ArbitrageOpportunity),
          (runGate l b).map (fun e => e.estimated_profit) =
            ((runGate l b).map Execution.decision).map (fun d => d.2.2) := by
        intro l
        rw [List.map_map]
        rfl
      rw [h2, h2, hgate]
    simp only [scan_all, if_neg hb]
    refine ⟨hprof, hgate, ?_⟩
    simp [hlen, hsum]

end TradingBotV5
